import Mathlib

/-!
Verification development for the OceanEYE-TaxaFormer processing queue
(`src/backend/queue_system.py`).

The queue core is embedded shallowly:

* `JobStatus` and `QueueJob` mirror the `JobStatus` enum and the `QueueJob`
  dataclass.
* `ProcessingQueue` is the mutable state of the Python class of the same name
  (`queue` list, `current_job` slot, and the two configuration constants set
  in `__init__`).
* Each method becomes a pure function threading the state explicitly; the
  current wall-clock instant `datetime.now()` is passed as an explicit
  parameter `now : Int` (seconds).  Timestamps are `Int` seconds; elapsed
  times `(a - b).total_seconds()` become plain subtraction.
* Python exceptions raised by `add_job` become `Except AddJobError`.
* `asyncio.create_task(self.clear_completed_job_after_delay())` is modelled
  by exposing `clear_completed_job_after_delay` as a separate operation that
  the environment may run later (after the 30-second grace sleep).
* The `asyncio.Lock` makes each method atomic; the model reflects this by
  treating each operation as one atomic step of a transition system.
-/

/-- The `JobStatus` enum: QUEUED / PROCESSING / COMPLETED / FAILED. -/
inductive JobStatus where
  | queued
  | processing
  | completed
  | failed
deriving DecidableEq, Repr

/-- The `QueueJob` dataclass.  `job_id`, `filename` and `user_session` are
opaque strings; timestamps are seconds (`created_at` is always set,
`started_at` / `completed_at` start out `None`). -/
structure QueueJob where
  job_id : String
  filename : String
  file_size : Nat
  user_session : String
  created_at : Int
  started_at : Option Int := none
  completed_at : Option Int := none
  status : JobStatus := JobStatus.queued
  estimated_time : Int := 0
  progress : Int := 0
deriving DecidableEq, Repr

/-- State of the `ProcessingQueue` class: the FIFO `queue` list, the
`current_job` slot, and the two constants from `__init__`
(`max_queue_size = 10`, `job_timeout = 300`). -/
structure ProcessingQueue where
  queue : List QueueJob
  current_job : Option QueueJob
  max_queue_size : Nat := 10
  job_timeout : Int := 300
deriving DecidableEq, Repr

/-- `ProcessingQueue.__init__`: empty queue, no current job. -/
def ProcessingQueue.init : ProcessingQueue :=
  { queue := [], current_job := none, max_queue_size := 10, job_timeout := 300 }

/-- `estimate_processing_time`: base 30 seconds plus 1 second per 100KB after
the first 1KB.  Python's floor division `//` is `Int.fdiv`; the operand
`file_size - 1024` can be negative, which `max(0, ...)` clamps away. -/
def estimate_processing_time (file_size : Nat) : Int :=
  let base_time : Int := 30
  let size_factor : Int := max 0 (Int.fdiv ((file_size : Int) - 1024) (100 * 1024))
  base_time + size_factor

/-- Is the job's status one of the two terminal states?  (The membership test
`status in [JobStatus.COMPLETED, JobStatus.FAILED]` used at several places.) -/
def isTerminal (st : JobStatus) : Bool :=
  st == JobStatus.completed || st == JobStatus.failed

/-- `cleanup_old_jobs`: drop queue entries whose `created_at` is not after
`now - 1 hour`, and clear a terminal `current_job` whose `completed_at`
predates the cutoff. -/
def cleanup_old_jobs (now : Int) (s : ProcessingQueue) : ProcessingQueue :=
  let cutoff_time : Int := now - 3600
  let queue := s.queue.filter (fun job => cutoff_time < job.created_at)
  let current_job :=
    match s.current_job with
    | some job =>
      match job.completed_at with
      | some c => if isTerminal job.status && c < cutoff_time then none else some job
      | none => some job
    | none => none
  { s with queue := queue, current_job := current_job }

/-- `get_user_job`: the current job if it belongs to the session, else the
first queue entry of the session, else `none`. -/
def get_user_job (s : ProcessingQueue) (user_session : String) : Option QueueJob :=
  match s.current_job with
  | some job =>
    if job.user_session == user_session then some job
    else s.queue.find? (fun j => j.user_session == user_session)
  | none => s.queue.find? (fun j => j.user_session == user_session)

/-- Helper for `get_job_position`: scan with a running index `i`
(`for i, job in enumerate(self.queue)`), returning `i + 1` at the first
match and `0` when the list is exhausted. -/
def positionAux (job_id : String) : List QueueJob → Nat → Nat
  | [], _ => 0
  | job :: rest, i => if job.job_id == job_id then i + 1 else positionAux job_id rest (i + 1)

/-- `get_job_position`: 1-indexed position of a job in the queue, 0 if absent. -/
def get_job_position (s : ProcessingQueue) (job_id : String) : Nat :=
  positionAux job_id s.queue 0

/-- Elapsed seconds since a (supposedly set) start timestamp.  The source
subtracts `started_at` unconditionally on jobs it has just checked to be
PROCESSING; such jobs always carry a timestamp (see the reachability
invariant below), so the `none` default never fires on reachable states. -/
def elapsedSince (now : Int) (started_at : Option Int) : Int :=
  now - started_at.getD now

/-- `estimate_wait_time_for_position`: remaining time of the running job plus
the estimated times of the queued jobs strictly ahead of `position`. -/
def estimate_wait_time_for_position (now : Int) (s : ProcessingQueue) (position : Nat) : Int :=
  if position = 0 then 0
  else
    let current_remaining : Int :=
      match s.current_job with
      | some job =>
        if job.status == JobStatus.processing then
          max 0 (job.estimated_time - elapsedSince now job.started_at)
        else 0
      | none => 0
    let jobs_ahead_time : Int :=
      ((s.queue.take (position - 1)).map (fun job => job.estimated_time)).sum
    current_remaining + jobs_ahead_time

/-- `estimate_total_wait_time`: wait for position `len(queue) + 1`. -/
def estimate_total_wait_time (now : Int) (s : ProcessingQueue) : Int :=
  estimate_wait_time_for_position now s (s.queue.length + 1)

/-- The two exceptions `add_job` can raise: "Queue is full. Please try again
later." and "You already have a job in the queue. Please wait for it to
complete.". -/
inductive AddJobError where
  | queueFull
  | duplicateActiveJob
deriving DecidableEq, Repr

/-- `add_job`: capacity check, then duplicate-caller check, then create the
job in QUEUED state with `created_at = now` and the size-based estimate, and
append it to the FIFO tail. -/
def add_job (now : Int) (s : ProcessingQueue) (job_id filename : String)
    (file_size : Nat) (user_session : String) :
    Except AddJobError (QueueJob × ProcessingQueue) :=
  if s.max_queue_size ≤ s.queue.length then
    Except.error AddJobError.queueFull
  else
    let duplicate :=
      match get_user_job s user_session with
      | some existing_job =>
        existing_job.status == JobStatus.queued || existing_job.status == JobStatus.processing
      | none => false
    if duplicate then
      Except.error AddJobError.duplicateActiveJob
    else
      let job : QueueJob :=
        { job_id := job_id
          filename := filename
          file_size := file_size
          user_session := user_session
          created_at := now
          estimated_time := estimate_processing_time file_size }
      Except.ok (job, { s with queue := s.queue ++ [job] })

/-- The four shapes of the dict returned by `get_queue_status` (the
`message` string of the queued shape is a formatting of fields already
present and is omitted). -/
inductive QueueStatusView where
  | noJob (queue_length : Nat) (estimated_wait : Int)
  | processingView (job_id filename : String) (progress : Int) (estimated_remaining : Int)
  | queuedView (job_id filename : String) (position queue_length : Nat) (estimated_wait : Int)
  | terminalView (status : JobStatus) (job_id filename : String)
deriving DecidableEq, Repr

/-- `get_queue_status`: clean up, then report the user's job (processing /
queued / terminal shape) or the no-job shape.  Returns the view together
with the state as mutated by the embedded cleanup. -/
def get_queue_status (now : Int) (s : ProcessingQueue) (user_session : String) :
    QueueStatusView × ProcessingQueue :=
  let s := cleanup_old_jobs now s
  match get_user_job s user_session with
  | none =>
    (QueueStatusView.noJob s.queue.length (estimate_total_wait_time now s), s)
  | some user_job =>
    if user_job.status == JobStatus.processing then
      (QueueStatusView.processingView user_job.job_id user_job.filename user_job.progress
        (max 0 (user_job.estimated_time - elapsedSince now user_job.started_at)), s)
    else if user_job.status == JobStatus.queued then
      let position := get_job_position s user_job.job_id
      (QueueStatusView.queuedView user_job.job_id user_job.filename position s.queue.length
        (estimate_wait_time_for_position now s position), s)
    else
      (QueueStatusView.terminalView user_job.status user_job.job_id user_job.filename, s)

/-- The in-place mutation `self.current_job.status = JobStatus.FAILED`
performed on a timed-out running job (note: only `status` changes; in
particular `completed_at` is left as is). -/
def force_fail (job : QueueJob) : QueueJob :=
  { job with status := JobStatus.failed }

/-- Lines 136-145 of `process_next_job`: pop the FIFO head, mark it
PROCESSING with `started_at = now`, install it as `current_job`, return it. -/
def promote_head (now : Int) (s : ProcessingQueue) : Option QueueJob × ProcessingQueue :=
  match s.queue with
  | [] => (none, s)
  | next_job :: rest =>
    let next_job := { next_job with status := JobStatus.processing, started_at := some now }
    (some next_job, { s with queue := rest, current_job := some next_job })

/-- `process_next_job`: clean up; if the current job is PROCESSING, either
force-fail it on timeout (strictly more than `job_timeout` seconds since
`started_at`) and fall through to promotion, or report busy (`none`);
otherwise promote the queue head if any. -/
def process_next_job (now : Int) (s : ProcessingQueue) :
    Option QueueJob × ProcessingQueue :=
  let s := cleanup_old_jobs now s
  match s.current_job with
  | some cur =>
    if cur.status == JobStatus.processing then
      match cur.started_at with
      | some t =>
        if s.job_timeout < now - t then
          let _ := force_fail cur
          promote_head now { s with current_job := none }
        else (none, s)
      | none => (none, s)
    else promote_head now s
  | none => promote_head now s

/-- `update_job_progress`: clamp to [0, 100] and store, only when the id
matches the current job. -/
def update_job_progress (s : ProcessingQueue) (job_id : String) (progress : Int) :
    ProcessingQueue :=
  match s.current_job with
  | some job =>
    if job.job_id == job_id then
      { s with current_job := some { job with progress := min 100 (max 0 progress) } }
    else s
  | none => s

/-- The three field updates `complete_job` applies to the matching current
job: terminal status, `completed_at = now`, progress 100 on success / 0 on
failure. -/
def complete_update (now : Int) (success : Bool) (job : QueueJob) : QueueJob :=
  { job with
    status := if success then JobStatus.completed else JobStatus.failed
    completed_at := some now
    progress := if success then 100 else 0 }

/-- `complete_job`: when the id matches the current job, set COMPLETED /
FAILED, stamp `completed_at = now`, set progress to 100 on success and 0 on
failure.  (The delayed slot release it schedules is the separate operation
`clear_completed_job_after_delay`.) -/
def complete_job (now : Int) (s : ProcessingQueue) (job_id : String) (success : Bool) :
    ProcessingQueue :=
  match s.current_job with
  | some job =>
    if job.job_id == job_id then
      { s with current_job := some (complete_update now success job) }
    else s
  | none => s

/-- `clear_completed_job_after_delay` (the body after the 30-second sleep):
clear the slot if it still holds a terminal job. -/
def clear_completed_job_after_delay (s : ProcessingQueue) : ProcessingQueue :=
  match s.current_job with
  | some job => if isTerminal job.status then { s with current_job := none } else s
  | none => s

/-- One atomic operation on the shared queue, with the wall-clock instant it
runs at where the source reads `datetime.now()`. -/
inductive Op where
  | addJob (now : Int) (job_id filename : String) (file_size : Nat) (user_session : String)
  | tryPromoteNext (now : Int)
  | reportProgress (job_id : String) (progress : Int)
  | complete (now : Int) (job_id : String) (success : Bool)
  | sweep (now : Int)
  | statusFor (now : Int) (user_session : String)
  | clearGrace

/-- Effect of one operation on the state (return values discarded; a raised
`add_job` exception leaves the state unchanged, as in the source). -/
def applyOp (s : ProcessingQueue) : Op → ProcessingQueue
  | Op.addJob now job_id filename file_size user_session =>
    match add_job now s job_id filename file_size user_session with
    | Except.ok (_, s') => s'
    | Except.error _ => s
  | Op.tryPromoteNext now => (process_next_job now s).2
  | Op.reportProgress job_id progress => update_job_progress s job_id progress
  | Op.complete now job_id success => complete_job now s job_id success
  | Op.sweep now => cleanup_old_jobs now s
  | Op.statusFor now user_session => (get_queue_status now s user_session).2
  | Op.clearGrace => clear_completed_job_after_delay s

/-- Run a sequence of operations from a state. -/
def runOps (s : ProcessingQueue) (ops : List Op) : ProcessingQueue :=
  ops.foldl applyOp s

/-- Number of jobs in state PROCESSING anywhere in the system (queue list
plus current slot). -/
def countRunning (s : ProcessingQueue) : Nat :=
  (s.queue.filter (fun j => j.status == JobStatus.processing)).length +
    (match s.current_job with
     | some j => if j.status == JobStatus.processing then 1 else 0
     | none => 0)

/-- Invariant of reachable queue states: every entry of the FIFO list is
still QUEUED with both optional timestamps unset, and the slot occupant (if
any) was promoted at some point (never QUEUED, `started_at` stamped), has no
completion stamp while PROCESSING, and carries one once terminal. -/
def QueueInv (s : ProcessingQueue) : Prop :=
  (∀ j ∈ s.queue, j.status = JobStatus.queued ∧ j.started_at = none ∧ j.completed_at = none) ∧
  (∀ j, s.current_job = some j →
     j.status ≠ JobStatus.queued ∧
     j.started_at ≠ none ∧
     (j.status = JobStatus.processing → j.completed_at = none) ∧
     (isTerminal j.status = true → j.completed_at ≠ none))

/-! ### Concrete fixtures used by witnesses and counterexamples -/

/-- A queued job of caller `u<i>`, admitted at instant 0. -/
def mkQueuedJob (i : Nat) : QueueJob :=
  { job_id := "job" ++ toString i
    filename := "file" ++ toString i
    file_size := 0
    user_session := "u" ++ toString i
    created_at := 0
    estimated_time := 30 }

/-- A queue at capacity: ten queued jobs of callers u0..u9. -/
def fullQueueState : ProcessingQueue :=
  { queue := (List.range 10).map mkQueuedJob, current_job := none }

/-- A single-entry queue holding caller u3's queued job. -/
def dupState : ProcessingQueue :=
  { queue := [mkQueuedJob 3], current_job := none }

/-- A queued job abandoned at instant 0, long before the probe instant
99999 (stale for the 1-hour retention window). -/
def staleJobC5 : QueueJob := mkQueuedJob 1

/-- State holding only the stale job. -/
def staleState : ProcessingQueue :=
  { queue := [staleJobC5], current_job := none }

/-- The job `add_job 99999 staleState "n1" "f1" 0 "u2"` creates. -/
def newJobC5 : QueueJob :=
  { job_id := "n1"
    filename := "f1"
    file_size := 0
    user_session := "u2"
    created_at := 99999
    estimated_time := 30 }

/-- A running job of caller u7 that started at instant 0 (timed out at any
probe instant past 300). -/
def timedOutJob : QueueJob :=
  { job_id := "t1"
    filename := "tf"
    file_size := 0
    user_session := "u7"
    created_at := 0
    started_at := some 0
    status := JobStatus.processing
    estimated_time := 30 }

/-- The timed-out running job alone in the system. -/
def timedOutState : ProcessingQueue :=
  { queue := [], current_job := some timedOutJob }

/-- A fresh queued job of caller u8 admitted at instant 200. -/
def freshQueuedJob : QueueJob :=
  { job_id := "q1"
    filename := "qf"
    file_size := 0
    user_session := "u8"
    created_at := 200
    estimated_time := 30 }

/-- The timed-out running job with a fresh queued successor. -/
def timedOutBusyState : ProcessingQueue :=
  { queue := [freshQueuedJob], current_job := some timedOutJob }

/-- A running job of caller u9 (for the completion scenario). -/
def runningJobC8 : QueueJob :=
  { job_id := "r1"
    filename := "rf"
    file_size := 0
    user_session := "u9"
    created_at := 10
    started_at := some 10
    status := JobStatus.processing
    estimated_time := 30 }

/-- Running job of u9 plus a queued successor of u8. -/
def stateC8 : ProcessingQueue :=
  { queue := [freshQueuedJob], current_job := some runningJobC8 }

/-- A completed job of caller u1 still occupying the slot (grace period). -/
def termJobC10 : QueueJob :=
  { job_id := "c1"
    filename := "cf"
    file_size := 0
    user_session := "u1"
    created_at := 100
    started_at := some 300
    completed_at := some 350
    status := JobStatus.completed
    estimated_time := 30
    progress := 100 }

/-- The same caller u1 has admitted a new queued job while the old one sits
in the slot. -/
def queuedJobC10 : QueueJob :=
  { job_id := "c2"
    filename := "cg"
    file_size := 0
    user_session := "u1"
    created_at := 360
    estimated_time := 30 }

/-- Grace-period state: u1's terminal job in the slot, u1's new job queued. -/
def graceState : ProcessingQueue :=
  { queue := [queuedJobC10], current_job := some termJobC10 }

/-- Three distinct queued jobs, for position calculations. -/
def positionsState : ProcessingQueue :=
  { queue := [mkQueuedJob 4, mkQueuedJob 5, mkQueuedJob 6], current_job := none }

/-- The fresh queued job as promoted at instant 301. -/
def promotedFreshJob : QueueJob :=
  { freshQueuedJob with status := JobStatus.processing, started_at := some 301 }

/-! ### Helper lemmas -/

theorem estimate_eq_spec (n : Nat) :
    estimate_processing_time n = 30 + ((n - 1024) / (100 * 1024) : Nat) := by
  simp only [estimate_processing_time]
  rw [Int.fdiv_eq_ediv _ (by norm_num)]
  rcases max_cases (0 : Int) (((n : Int) - 1024) / (100 * 1024)) with ⟨h1, h2⟩ | ⟨h1, h2⟩ <;>
    rw [h1] <;> omega

theorem cleanup_queue_of_fresh (now : Int) (s : ProcessingQueue)
    (h : ∀ j ∈ s.queue, now - 3600 < j.created_at) :
    (cleanup_old_jobs now s).queue = s.queue := by
  simp only [cleanup_old_jobs]
  exact List.filter_eq_self.mpr (fun j hj => by simpa using h j hj)

theorem cleanup_current_of_processing (now : Int) (s : ProcessingQueue) (cur : QueueJob)
    (hc : s.current_job = some cur) (hst : cur.status = JobStatus.processing) :
    (cleanup_old_jobs now s).current_job = some cur := by
  simp only [cleanup_old_jobs, hc]
  cases hco : cur.completed_at with
  | none => rfl
  | some c => simp [isTerminal, hst]

theorem cleanup_fields (now : Int) (s : ProcessingQueue) :
    (cleanup_old_jobs now s).max_queue_size = s.max_queue_size ∧
    (cleanup_old_jobs now s).job_timeout = s.job_timeout := by
  simp [cleanup_old_jobs]

theorem get_queue_status_state (now : Int) (s : ProcessingQueue) (user : String) :
    (get_queue_status now s user).2 = cleanup_old_jobs now s := by
  simp only [get_queue_status]
  cases get_user_job (cleanup_old_jobs now s) user with
  | none => rfl
  | some j =>
    by_cases h1 : j.status == JobStatus.processing
    · simp [h1]
    · by_cases h2 : j.status == JobStatus.queued <;> simp [h1, h2]

theorem positionAux_eq_zero_of_not_mem (jid : String) (l : List QueueJob) (acc : Nat)
    (h : jid ∉ l.map QueueJob.job_id) : positionAux jid l acc = 0 := by
  induction l generalizing acc with
  | nil => rfl
  | cons j rest ih =>
    simp only [List.map_cons, List.mem_cons] at h
    push_neg at h
    simp only [positionAux]
    rw [if_neg (by simpa [beq_iff_eq] using Ne.symm h.1)]
    exact ih _ h.2

theorem positionAux_get (l : List QueueJob) (acc : Nat)
    (hnd : (l.map QueueJob.job_id).Nodup) (i : Fin l.length) :
    positionAux (l.get i).job_id l acc = acc + i.val + 1 := by
  induction l generalizing acc with
  | nil => exact absurd i.isLt (by simp)
  | cons j rest ih =>
    simp only [List.map_cons, List.nodup_cons] at hnd
    cases i using Fin.cases with
    | zero => simp [positionAux]
    | succ k =>
      have hgg : (j :: rest).get k.succ = rest.get k := rfl
      rw [hgg]
      simp only [positionAux]
      rw [if_neg]
      · have := ih (acc + 1) hnd.2 k
        have hv : k.succ.val = k.val + 1 := rfl
        omega
      · simp only [beq_iff_eq]
        intro hEq
        refine hnd.1 ?_
        rw [hEq]
        exact List.mem_map_of_mem QueueJob.job_id (rest.get_mem k.val k.isLt)

theorem cleanup_current_cases (now : Int) (s : ProcessingQueue) :
    (cleanup_old_jobs now s).current_job = s.current_job ∨
    (cleanup_old_jobs now s).current_job = none := by
  simp only [cleanup_old_jobs]
  cases hc : s.current_job with
  | none => exact Or.inr rfl
  | some cur =>
    dsimp only
    cases hco : cur.completed_at with
    | none => exact Or.inl rfl
    | some c =>
      dsimp only
      split
      · exact Or.inr rfl
      · exact Or.inl rfl

theorem cleanup_inv (now : Int) (s : ProcessingQueue) (h : QueueInv s) :
    QueueInv (cleanup_old_jobs now s) := by
  obtain ⟨h1, h2⟩ := h
  constructor
  · intro j hj
    have hq : (cleanup_old_jobs now s).queue =
        s.queue.filter (fun job => decide (now - 3600 < job.created_at)) := rfl
    rw [hq] at hj
    exact h1 j (List.mem_of_mem_filter hj)
  · intro j hj
    rcases cleanup_current_cases now s with hcc | hcc
    · rw [hcc] at hj
      exact h2 j hj
    · rw [hcc] at hj
      cases hj

theorem promote_head_inv (now : Int) (s : ProcessingQueue) (h : QueueInv s) :
    QueueInv (promote_head now s).2 := by
  obtain ⟨h1, h2⟩ := h
  cases hq : s.queue with
  | nil => simp only [promote_head, hq]; exact ⟨h1, h2⟩
  | cons next rest =>
    simp only [promote_head, hq]
    constructor
    · intro j hj
      exact h1 j (hq ▸ List.mem_cons_of_mem next hj)
    · intro j hj
      simp only [Option.some.injEq] at hj
      subst hj
      have hnext := h1 next (hq ▸ List.mem_cons_self next rest)
      refine ⟨by simp, by simp, fun _ => hnext.2.2, fun hterm => ?_⟩
      exact absurd hterm (by simp [isTerminal])

theorem process_next_job_inv (now : Int) (s : ProcessingQueue) (h : QueueInv s) :
    QueueInv (process_next_job now s).2 := by
  have hclean := cleanup_inv now s h
  simp only [process_next_job]
  split
  · split
    · split
      · split
        · exact promote_head_inv now _ ⟨hclean.1, fun j hj => by cases hj⟩
        · exact hclean
      · exact hclean
    · exact promote_head_inv now _ hclean
  · exact promote_head_inv now _ hclean

theorem add_job_ok_spec (now : Int) (s : ProcessingQueue) (jid fn : String) (sz : Nat)
    (user : String) (job : QueueJob) (s' : ProcessingQueue)
    (hok : add_job now s jid fn sz user = Except.ok (job, s')) :
    job.status = JobStatus.queued ∧ job.started_at = none ∧ job.completed_at = none ∧
    job.created_at = now ∧ job.estimated_time = estimate_processing_time sz ∧
    s'.queue = s.queue ++ [job] ∧ s'.current_job = s.current_job := by
  simp only [add_job] at hok
  split at hok
  · cases hok
  · split at hok
    · cases hok
    · simp only [Except.ok.injEq, Prod.mk.injEq] at hok
      obtain ⟨hjob, hs⟩ := hok
      subst hjob
      subst hs
      exact ⟨rfl, rfl, rfl, rfl, rfl, rfl, rfl⟩

theorem add_job_inv (now : Int) (s : ProcessingQueue) (jid fn : String) (sz : Nat)
    (user : String) (job : QueueJob) (s' : ProcessingQueue) (h : QueueInv s)
    (hok : add_job now s jid fn sz user = Except.ok (job, s')) :
    QueueInv s' := by
  obtain ⟨hst, hsa, hco, _, _, hq, hc⟩ := add_job_ok_spec now s jid fn sz user job s' hok
  constructor
  · intro j hj
    rw [hq] at hj
    rcases List.mem_append.mp hj with hj | hj
    · exact h.1 j hj
    · simp only [List.mem_singleton] at hj
      subst hj
      exact ⟨hst, hsa, hco⟩
  · intro j hj
    rw [hc] at hj
    exact h.2 j hj

theorem update_job_progress_inv (s : ProcessingQueue) (jid : String) (p : Int)
    (h : QueueInv s) : QueueInv (update_job_progress s jid p) := by
  obtain ⟨h1, h2⟩ := h
  simp only [update_job_progress]
  split
  · rename_i job hc
    split
    · refine ⟨h1, fun j hj => ?_⟩
      simp only [Option.some.injEq] at hj
      subst hj
      exact h2 job hc
    · exact ⟨h1, h2⟩
  · exact ⟨h1, h2⟩

theorem complete_job_inv (now : Int) (s : ProcessingQueue) (jid : String) (success : Bool)
    (h : QueueInv s) : QueueInv (complete_job now s jid success) := by
  obtain ⟨h1, h2⟩ := h
  simp only [complete_job]
  split
  · rename_i job hc
    split
    · refine ⟨h1, fun j hj => ?_⟩
      simp only [Option.some.injEq] at hj
      subst hj
      have hold := h2 job hc
      refine ⟨?_, hold.2.1, ?_, ?_⟩
      · cases success <;> simp [complete_update]
      · intro hp
        cases success <;> simp [complete_update] at hp
      · intro _
        simp [complete_update]
    · exact ⟨h1, h2⟩
  · exact ⟨h1, h2⟩

theorem clear_grace_inv (s : ProcessingQueue) (h : QueueInv s) :
    QueueInv (clear_completed_job_after_delay s) := by
  obtain ⟨h1, h2⟩ := h
  simp only [clear_completed_job_after_delay]
  split
  · split
    · exact ⟨h1, fun j hj => by cases hj⟩
    · exact ⟨h1, h2⟩
  · exact ⟨h1, h2⟩

theorem applyOp_inv (s : ProcessingQueue) (op : Op) (h : QueueInv s) :
    QueueInv (applyOp s op) := by
  cases op with
  | addJob now jid fn sz user =>
    simp only [applyOp]
    split
    · rename_i res job s' hok
      exact add_job_inv now s jid fn sz user job s' h hok
    · exact h
  | tryPromoteNext now => exact process_next_job_inv now s h
  | reportProgress jid p => exact update_job_progress_inv s jid p h
  | complete now jid success => exact complete_job_inv now s jid success h
  | sweep now => exact cleanup_inv now s h
  | statusFor now user =>
    simp only [applyOp]
    rw [get_queue_status_state]
    exact cleanup_inv now s h
  | clearGrace => exact clear_grace_inv s h

theorem init_inv : QueueInv ProcessingQueue.init := by
  refine ⟨?_, ?_⟩ <;> intro j hj <;> cases hj

theorem runOps_inv (ops : List Op) (s : ProcessingQueue) (h : QueueInv s) :
    QueueInv (runOps s ops) := by
  induction ops generalizing s with
  | nil => exact h
  | cons op rest ih => exact ih (applyOp s op) (applyOp_inv s op h)

theorem countRunning_le_one_of_inv (s : ProcessingQueue) (h : QueueInv s) :
    countRunning s ≤ 1 := by
  obtain ⟨h1, _⟩ := h
  unfold countRunning
  have hfilter : s.queue.filter (fun j => j.status == JobStatus.processing) = [] := by
    rw [List.filter_eq_nil_iff]
    intro j hj
    simp [(h1 j hj).1]
  rw [hfilter]
  simp only [List.length_nil, Nat.zero_add]
  cases s.current_job with
  | none => exact Nat.zero_le 1
  | some j =>
    dsimp only
    split
    · exact le_refl 1
    · exact Nat.zero_le 1

/-- C1: for every sequence of operations (admit, tryPromoteNext,
reportProgress, complete, sweep, statusFor, grace-clear) starting from the
empty queue, at most one job is in the PROCESSING (Running) state at any
instant. -/
theorem C1_at_most_one_running (ops : List Op) :
    countRunning (runOps ProcessingQueue.init ops) ≤ 1 :=
  countRunning_le_one_of_inv _ (runOps_inv ops ProcessingQueue.init init_inv)

/-- C6: `estimate_processing_time` equals 30 plus one second per full 100KB
(102400 bytes) of payload beyond the first 1KB (1024 bytes), is never less
than 30, and takes the three values the spec lists. -/
theorem C6_estimate_formula (payloadSize : Nat) :
    estimate_processing_time payloadSize =
      30 + ((payloadSize - 1024) / (100 * 1024) : Nat) ∧
    30 ≤ estimate_processing_time payloadSize ∧
    estimate_processing_time 1024 = 30 ∧
    estimate_processing_time (1024 + 100 * 1024) = 31 ∧
    estimate_processing_time 0 = 30 := by
  refine ⟨estimate_eq_spec payloadSize, ?_, by decide, by decide, by decide⟩
  rw [estimate_eq_spec payloadSize]
  omega

/-- C7: the head of the queued list has position 1; with distinct job ids
the positions are the contiguous integers 1..n in FIFO order; a job id not
present in the queued list gets position 0. -/
theorem C7_positions (s : ProcessingQueue) :
    (∀ h t, s.queue = h :: t → get_job_position s h.job_id = 1) ∧
    ((s.queue.map QueueJob.job_id).Nodup →
      ∀ i : Fin s.queue.length, get_job_position s (s.queue.get i).job_id = i.val + 1) ∧
    (∀ jid, jid ∉ s.queue.map QueueJob.job_id → get_job_position s jid = 0) := by
  refine ⟨?_, ?_, ?_⟩
  · intro h t hq
    simp [get_job_position, hq, positionAux]
  · intro hnd i
    have := positionAux_get s.queue 0 hnd i
    simpa [get_job_position] using this
  · intro jid hmem
    exact positionAux_eq_zero_of_not_mem jid s.queue 0 hmem

/-- C7 witness: positions in a concrete three-job queue. -/
theorem C7_positions_witness :
    get_job_position positionsState "job4" = 1 ∧
    get_job_position positionsState "job6" = 3 ∧
    get_job_position positionsState "zz" = 0 := by
  refine ⟨?_, ?_, ?_⟩
  · exact (C7_positions positionsState).1 (mkQueuedJob 4) [mkQueuedJob 5, mkQueuedJob 6] rfl
  · have := (C7_positions positionsState).2.1 (by decide) ⟨2, by decide⟩
    simpa using this
  · exact (C7_positions positionsState).2.2 "zz" (by decide)

/-- C2 counterexample: caller u3 has a queued job, yet with the queue at
capacity their duplicate admit is rejected with QueueFull, not
DuplicateActiveJob — the capacity check is decided first, contradicting the
claim. -/
theorem C2_counterexample :
    get_user_job fullQueueState "u3" = some (mkQueuedJob 3) ∧
    (mkQueuedJob 3).status = JobStatus.queued ∧
    add_job 100 fullQueueState "new" "nf" 0 "u3" = Except.error AddJobError.queueFull ∧
    AddJobError.queueFull ≠ AddJobError.duplicateActiveJob := by
  refine ⟨rfl, rfl, rfl, by decide⟩

/-- C2 (amended): when the queue is below capacity, a further admit by a
caller whose job is Queued or Running is rejected with DuplicateActiveJob
(and, the call returning an error, no job is created); the capacity check
is decided before the duplicate-caller check, not after. -/
theorem C2_amended (now : Int) (s : ProcessingQueue) (jid fn : String) (sz : Nat)
    (user : String) (e : QueueJob)
    (hcap : s.queue.length < s.max_queue_size)
    (he : get_user_job s user = some e)
    (hst : e.status = JobStatus.queued ∨ e.status = JobStatus.processing) :
    add_job now s jid fn sz user = Except.error AddJobError.duplicateActiveJob := by
  simp only [add_job, he]
  rw [if_neg (by omega)]
  rcases hst with h | h <;> simp [h]

/-- C2 witness: the duplicate rejection on a concrete one-job state. -/
theorem C2_amended_witness :
    add_job 100 dupState "new" "nf" 0 "u3" = Except.error AddJobError.duplicateActiveJob :=
  C2_amended 100 dupState "new" "nf" 0 "u3" (mkQueuedJob 3) (by decide) (by decide) (Or.inl rfl)

theorem cleanup_eq_of_processing (now : Int) (s : ProcessingQueue) (cur : QueueJob)
    (hc : s.current_job = some cur) (hst : cur.status = JobStatus.processing) :
    cleanup_old_jobs now s =
      { s with queue := s.queue.filter (fun job => decide (now - 3600 < job.created_at)),
               current_job := some cur } := by
  simp only [cleanup_old_jobs, hc]
  cases hco : cur.completed_at with
  | none => rfl
  | some c => simp [isTerminal, hst]

theorem cleanup_eq_of_none (now : Int) (s : ProcessingQueue) (hc : s.current_job = none) :
    cleanup_old_jobs now s =
      { s with queue := s.queue.filter (fun job => decide (now - 3600 < job.created_at)),
               current_job := none } := by
  simp [cleanup_old_jobs, hc]

theorem cleanup_current_keep (now : Int) (s : ProcessingQueue) (j : QueueJob) (c : Int)
    (hc : s.current_job = some j) (hco : j.completed_at = some c)
    (hfresh : now - 3600 ≤ c) :
    (cleanup_old_jobs now s).current_job = some j := by
  simp only [cleanup_old_jobs, hc, hco]
  rw [if_neg]
  simp only [Bool.and_eq_true, decide_eq_true_eq, not_and]
  intro _
  omega

theorem process_next_job_timeout (now t : Int) (s : ProcessingQueue) (cur : QueueJob)
    (hc : s.current_job = some cur) (hst : cur.status = JobStatus.processing)
    (hstart : cur.started_at = some t) (hto : s.job_timeout < now - t) :
    process_next_job now s =
      promote_head now
        { s with queue := s.queue.filter (fun job => decide (now - 3600 < job.created_at)),
                 current_job := none } := by
  simp only [process_next_job]
  rw [cleanup_eq_of_processing now s cur hc hst]
  simp only [hst, hstart, beq_self_eq_true, if_true]
  rw [if_pos hto]

theorem process_next_job_of_none (now : Int) (s : ProcessingQueue)
    (hc : s.current_job = none) :
    process_next_job now s =
      promote_head now
        { s with queue := s.queue.filter (fun job => decide (now - 3600 < job.created_at)),
                 current_job := none } := by
  simp only [process_next_job]
  rw [cleanup_eq_of_none now s hc]

theorem promote_head_fst_some (now : Int) (s : ProcessingQueue) (job : QueueJob)
    (h : (promote_head now s).1 = some job) :
    job.started_at = some now ∧ job.status = JobStatus.processing := by
  cases hq : s.queue with
  | nil => simp [promote_head, hq] at h
  | cons a rest =>
    simp only [promote_head, hq, Option.some.injEq] at h
    subst h
    exact ⟨rfl, rfl⟩

theorem process_next_job_some (now : Int) (s : ProcessingQueue) (job : QueueJob)
    (s' : ProcessingQueue) (h : process_next_job now s = (some job, s')) :
    job.started_at = some now ∧ job.status = JobStatus.processing := by
  have h1 : (process_next_job now s).1 = some job := by rw [h]
  simp only [process_next_job] at h1
  split at h1
  · split at h1
    · split at h1
      · split at h1
        · exact promote_head_fst_some now _ job h1
        · simp at h1
      · simp at h1
    · exact promote_head_fst_some now _ job h1
  · exact promote_head_fst_some now _ job h1

/-- C5 counterexample: admitting at instant 99999 while a stale job
(created at 0, past the 1-hour window) sits in the queue leaves the stale
job in place — a sweep would have removed it, so `add_job` performs no
sweep. -/
theorem C5_counterexample :
    staleJobC5.created_at < 99999 - 3600 ∧
    (cleanup_old_jobs 99999 staleState).queue = [] ∧
    add_job 99999 staleState "n1" "f1" 0 "u2" =
      Except.ok (newJobC5, { queue := [staleJobC5, newJobC5], current_job := none,
                             max_queue_size := 10, job_timeout := 300 }) := by
  refine ⟨by decide, rfl, rfl⟩

/-- C5 (amended): the stale-job sweep is invoked at the start of every
status read (`get_queue_status`), but admission (`add_job`) performs no
sweep: a successful admit appends to the otherwise untouched queue. -/
theorem C5_amended (now : Int) (s : ProcessingQueue) (user jid fn : String) (sz : Nat) :
    (get_queue_status now s user).2 = cleanup_old_jobs now s ∧
    (∀ job s', add_job now s jid fn sz user = Except.ok (job, s') →
       s'.queue = s.queue ++ [job] ∧ s'.current_job = s.current_job) := by
  refine ⟨get_queue_status_state now s user, fun job s' hok => ?_⟩
  have h := add_job_ok_spec now s jid fn sz user job s' hok
  exact ⟨h.2.2.2.2.2.1, h.2.2.2.2.2.2⟩

/-- C5 witness: the amended behaviour on the concrete stale state. -/
theorem C5_amended_witness :
    (get_queue_status 99999 staleState "u2").2 = cleanup_old_jobs 99999 staleState ∧
    ({ queue := [staleJobC5, newJobC5], current_job := none,
       max_queue_size := 10, job_timeout := 300 } : ProcessingQueue).queue =
      staleState.queue ++ [newJobC5] :=
  ⟨(C5_amended 99999 staleState "u2" "n1" "f1" 0).1,
   ((C5_amended 99999 staleState "u2" "n1" "f1" 0).2 newJobC5
     { queue := [staleJobC5, newJobC5], current_job := none,
       max_queue_size := 10, job_timeout := 300 } rfl).1⟩

/-- C4 counterexample: after the timeout force-fail at instant 301, the
slot is empty and caller u7's statusFor returns the no-active-job view,
not the Failed terminal view the claim promises. -/
theorem C4_counterexample :
    (process_next_job 301 timedOutState).2.current_job = none ∧
    (get_queue_status 301 (process_next_job 301 timedOutState).2 "u7").1 =
      QueueStatusView.noJob 0 0 ∧
    QueueStatusView.noJob 0 0 ≠
      QueueStatusView.terminalView JobStatus.failed "t1" "tf" := by
  refine ⟨rfl, rfl, by decide⟩

/-- C4 (amended): the timeout force-fail drops the job: the slot is
cleared, the call returns none, and (with an empty queue) a subsequent
statusFor by the job's caller returns the no-active-job view rather than a
Failed terminal view. -/
theorem C4_amended (now t : Int) (s : ProcessingQueue) (cur : QueueJob) (user : String)
    (hc : s.current_job = some cur) (hst : cur.status = JobStatus.processing)
    (hstart : cur.started_at = some t) (hto : s.job_timeout < now - t)
    (hq : s.queue = []) :
    (process_next_job now s).1 = none ∧
    (process_next_job now s).2.current_job = none ∧
    (get_queue_status now (process_next_job now s).2 user).1 = QueueStatusView.noJob 0 0 := by
  have hp := process_next_job_timeout now t s cur hc hst hstart hto
  rw [hp]
  simp only [hq, List.filter_nil]
  refine ⟨rfl, rfl, ?_⟩
  simp [promote_head, get_queue_status, cleanup_old_jobs, get_user_job,
    estimate_total_wait_time, estimate_wait_time_for_position]

/-- C4 witness: the amended behaviour on the concrete timed-out state. -/
theorem C4_amended_witness :
    (process_next_job 301 timedOutState).1 = none ∧
    (process_next_job 301 timedOutState).2.current_job = none ∧
    (get_queue_status 301 (process_next_job 301 timedOutState).2 "u7").1 =
      QueueStatusView.noJob 0 0 :=
  C4_amended 301 0 timedOutState timedOutJob "u7" rfl rfl rfl (by decide) rfl

/-- C9 counterexample: the timed-out running job has no completion stamp,
and the force-fail transition flips its status to Failed while leaving
`completed_at = none`; the job is then dropped from the state entirely, so
no completedAt is ever set for this terminal transition. -/
theorem C9_counterexample :
    timedOutJob.status = JobStatus.processing ∧
    timedOutJob.completed_at = none ∧
    (force_fail timedOutJob).status = JobStatus.failed ∧
    (force_fail timedOutJob).completed_at = none ∧
    (process_next_job 301 timedOutState).2.current_job = none ∧
    (process_next_job 301 timedOutState).2.queue = [] := by
  refine ⟨rfl, rfl, rfl, rfl, rfl, rfl⟩

/-- C9 (amended): createdAt is stamped at admission, startedAt at promotion
to Running, and completedAt by `complete_job` — but the force-fail
transition in tryPromoteNext does NOT stamp completedAt (it only flips the
status).  The reachability invariant records each stamp's presence. -/
theorem C9_amended_timestamps :
    (∀ ops, QueueInv (runOps ProcessingQueue.init ops)) ∧
    (∀ now s jid fn sz user job s',
       add_job now s jid fn sz user = Except.ok (job, s') →
       job.created_at = now ∧ job.started_at = none ∧ job.completed_at = none) ∧
    (∀ now s job s', process_next_job now s = (some job, s') →
       job.started_at = some now ∧ job.status = JobStatus.processing) ∧
    (∀ now s jid success job, s.current_job = some job → job.job_id = jid →
       ∃ job', (complete_job now s jid success).current_job = some job' ∧
         job'.completed_at = some now ∧ job'.created_at = job.created_at ∧
         job'.started_at = job.started_at) ∧
    (∀ job, (force_fail job).completed_at = job.completed_at ∧
       (force_fail job).status = JobStatus.failed) := by
  refine ⟨?_, ?_, ?_, ?_, ?_⟩
  · intro ops
    exact runOps_inv ops ProcessingQueue.init init_inv
  · intro now s jid fn sz user job s' hok
    have h := add_job_ok_spec now s jid fn sz user job s' hok
    exact ⟨h.2.2.2.1, h.2.1, h.2.2.1⟩
  · intro now s job s' h
    exact process_next_job_some now s job s' h
  · intro now s jid success job hc hid
    refine ⟨complete_update now success job, ?_, rfl, rfl, rfl⟩
    simp [complete_job, hc, hid]
  · intro job
    exact ⟨rfl, rfl⟩

/-- C9 witness: stamp facts at concrete completion and promotion steps. -/
theorem C9_amended_timestamps_witness :
    (∃ job', (complete_job 400 stateC8 "r1" true).current_job = some job' ∧
       job'.completed_at = some 400 ∧ job'.created_at = runningJobC8.created_at ∧
       job'.started_at = runningJobC8.started_at) ∧
    (promotedFreshJob.started_at = some 301 ∧ promotedFreshJob.status = JobStatus.processing) :=
  ⟨C9_amended_timestamps.2.2.2.1 400 stateC8 "r1" true runningJobC8 rfl rfl,
   C9_amended_timestamps.2.2.1 301 timedOutBusyState promotedFreshJob
     { queue := [], current_job := some promotedFreshJob,
       max_queue_size := 10, job_timeout := 300 } rfl⟩


/-- C3: when tryPromoteNext finds the running job started more than
`job_timeout` seconds ago, in that same call the job is force-failed
(status Failed), the slot is cleared, and the head of the queued list (if
any) is popped, marked PROCESSING with `started_at` stamped, installed as
the current job and returned. -/
theorem C3_timeout_promotion (now t : Int) (s : ProcessingQueue) (cur : QueueJob)
    (hc : s.current_job = some cur) (hst : cur.status = JobStatus.processing)
    (hstart : cur.started_at = some t) (hto : s.job_timeout < now - t)
    (hfresh : ∀ j ∈ s.queue, now - 3600 < j.created_at) :
    ((force_fail cur).status = JobStatus.failed ∧
     (force_fail cur).started_at = cur.started_at) ∧
    (s.queue = [] →
      (process_next_job now s).1 = none ∧ (process_next_job now s).2.current_job = none) ∧
    (∀ h tl, s.queue = h :: tl →
      (process_next_job now s).1 =
          some { h with status := JobStatus.processing, started_at := some now } ∧
      (process_next_job now s).2.current_job =
          some { h with status := JobStatus.processing, started_at := some now } ∧
      (process_next_job now s).2.queue = tl) := by
  have hp := process_next_job_timeout now t s cur hc hst hstart hto
  have hfq : s.queue.filter (fun job => decide (now - 3600 < job.created_at)) = s.queue :=
    List.filter_eq_self.mpr (fun j hj => by simpa using hfresh j hj)
  rw [hp, hfq]
  refine ⟨⟨rfl, rfl⟩, ?_, ?_⟩
  · intro hq
    simp [promote_head, hq]
  · intro h tl hq
    simp [promote_head, hq]

/-- C3 witness: the concrete timed-out state with one fresh queued job. -/
theorem C3_timeout_promotion_witness :
    (process_next_job 301 timedOutBusyState).1 = some promotedFreshJob ∧
    (process_next_job 301 timedOutBusyState).2.current_job = some promotedFreshJob ∧
    (process_next_job 301 timedOutBusyState).2.queue = [] :=
  (C3_timeout_promotion 301 0 timedOutBusyState timedOutJob rfl rfl rfl (by decide)
    (by decide)).2.2 freshQueuedJob [] rfl

/-- C10: the caller lookup prefers the current slot: while a caller's
terminal job still occupies the slot (grace period) and the caller has a
new queued job, statusFor returns the terminal view of the old job, not
the queued view of the new one. -/
theorem C10_current_slot_preferred (now c : Int) (s : ProcessingQueue) (j q : QueueJob)
    (user : String)
    (hc : s.current_job = some j) (hu : j.user_session = user)
    (hterm : isTerminal j.status = true)
    (hcomp : j.completed_at = some c) (hfreshc : now - 3600 ≤ c)
    (hq : q ∈ s.queue) (hqu : q.user_session = user) :
    get_user_job (cleanup_old_jobs now s) user = some j ∧
    (get_queue_status now s user).1 =
      QueueStatusView.terminalView j.status j.job_id j.filename := by
  have hkeep := cleanup_current_keep now s j c hc hcomp hfreshc
  have hguj : get_user_job (cleanup_old_jobs now s) user = some j := by
    simp [get_user_job, hkeep, hu]
  refine ⟨hguj, ?_⟩
  simp only [get_queue_status, hguj]
  cases hjs : j.status with
  | queued => rw [hjs] at hterm; simp [isTerminal] at hterm
  | processing => rw [hjs] at hterm; simp [isTerminal] at hterm
  | completed => simp
  | failed => simp

/-- C10 witness: the concrete grace-period state of caller u1. -/
theorem C10_current_slot_preferred_witness :
    get_user_job (cleanup_old_jobs 400 graceState) "u1" = some termJobC10 ∧
    (get_queue_status 400 graceState "u1").1 =
      QueueStatusView.terminalView JobStatus.completed "c1" "cf" :=
  C10_current_slot_preferred 400 350 graceState termJobC10 queuedJobC10 "u1"
    rfl rfl rfl rfl (by decide) (List.mem_singleton.mpr rfl) rfl

/-- C8: after `complete_job(jobId, success := true)` on the running job,
the job holds progress 100 in a Completed state and statusFor reports the
Completed terminal view at any instant within the retention hour (in
particular throughout the 30-second grace period, until the delayed clear
runs); the grace-period clear empties the slot, after which the next
queued job is promoted by tryPromoteNext. -/
theorem C8_complete_then_grace (now : Int) (s : ProcessingQueue) (j : QueueJob)
    (jid user : String)
    (hc : s.current_job = some j) (hst : j.status = JobStatus.processing)
    (hid : j.job_id = jid) (hu : j.user_session = user) :
    (∃ j', (complete_job now s jid true).current_job = some j' ∧
       j'.progress = 100 ∧ j'.status = JobStatus.completed) ∧
    (∀ t, t ≤ now + 3600 →
       (get_queue_status t (complete_job now s jid true) user).1 =
         QueueStatusView.terminalView JobStatus.completed j.job_id j.filename) ∧
    (clear_completed_job_after_delay (complete_job now s jid true)).current_job = none ∧
    (∀ t h tl, s.queue = h :: tl → (∀ q ∈ s.queue, t - 3600 < q.created_at) →
       (process_next_job t (clear_completed_job_after_delay (complete_job now s jid true))).1 =
           some { h with status := JobStatus.processing, started_at := some t } ∧
       (process_next_job t
           (clear_completed_job_after_delay (complete_job now s jid true))).2.current_job =
           some { h with status := JobStatus.processing, started_at := some t }) := by
  have hs' : complete_job now s jid true =
      { s with current_job := some (complete_update now true j) } := by
    simp [complete_job, hc, hid]
  have hclear : clear_completed_job_after_delay (complete_job now s jid true) =
      { s with current_job := none } := by
    rw [hs']
    simp [clear_completed_job_after_delay, complete_update, isTerminal]
  refine ⟨⟨complete_update now true j, by rw [hs'], rfl, rfl⟩, ?_, by rw [hclear], ?_⟩
  · intro t ht
    have hkeep : (cleanup_old_jobs t (complete_job now s jid true)).current_job =
        some (complete_update now true j) :=
      cleanup_current_keep t _ _ now (by rw [hs']) rfl (by omega)
    have hguj : get_user_job (cleanup_old_jobs t (complete_job now s jid true)) user =
        some (complete_update now true j) := by
      simp [get_user_job, hkeep, complete_update, hu]
    simp only [get_queue_status, hguj]
    simp [complete_update]
  · intro t h tl hq hfr
    rw [hclear]
    have hpn := process_next_job_of_none t { s with current_job := none } rfl
    rw [hpn]
    have hfq : s.queue.filter (fun job => decide (t - 3600 < job.created_at)) = s.queue :=
      List.filter_eq_self.mpr (fun q hq2 => by simpa using hfr q hq2)
    simp only [hfq]
    simp [promote_head, hq]

/-- C8 witness: the concrete completion scenario of caller u9. -/
theorem C8_complete_then_grace_witness :
    (∃ j', (complete_job 100 stateC8 "r1" true).current_job = some j' ∧
       j'.progress = 100 ∧ j'.status = JobStatus.completed) ∧
    (get_queue_status 130 (complete_job 100 stateC8 "r1" true) "u9").1 =
      QueueStatusView.terminalView JobStatus.completed "r1" "rf" ∧
    (clear_completed_job_after_delay (complete_job 100 stateC8 "r1" true)).current_job = none ∧
    (process_next_job 131
        (clear_completed_job_after_delay (complete_job 100 stateC8 "r1" true))).1 =
      some { freshQueuedJob with status := JobStatus.processing, started_at := some 131 } := by
  have h := C8_complete_then_grace 100 stateC8 runningJobC8 "r1" "u9" rfl rfl rfl rfl
  exact ⟨h.1, h.2.1 130 (by omega), h.2.2.1,
    (h.2.2.2 131 freshQueuedJob [] rfl (by decide)).1⟩

/-- C1 witness: the bound evaluated on one concrete operation sequence. -/
theorem C1_at_most_one_running_witness :
    countRunning (runOps ProcessingQueue.init
      [Op.addJob 0 "a" "fa" 0 "ua", Op.tryPromoteNext 1,
       Op.addJob 2 "b" "fb" 0 "ub", Op.tryPromoteNext 3]) ≤ 1 :=
  C1_at_most_one_running
    [Op.addJob 0 "a" "fa" 0 "ua", Op.tryPromoteNext 1,
     Op.addJob 2 "b" "fb" 0 "ub", Op.tryPromoteNext 3]

/-- C6 witness: the formula evaluated at a concrete payload size. -/
theorem C6_estimate_formula_witness :
    estimate_processing_time 204800 = 30 + ((204800 - 1024) / (100 * 1024) : Nat) :=
  (C6_estimate_formula 204800).1
